import Mathlib

/-!
Verification of `boards/shields/charybdis/charybdis_layers.h`.

The header consists of a `#pragma once` guard followed by seven `#define`
directives binding layer names to integer literals.  It is embedded
shallowly: a macro definition is a name paired with its integer value, the
header body is the list of directives in declaration order, and the
preprocessor is modelled as explicit state passing over that list, with
`#pragma once` as an inclusion flag on the state.
-/

namespace CharybdisLayers

/-- The seven define directives of the header, in declaration order
(lines 12-18 of `charybdis_layers.h`): each pairs a macro name with the
integer literal it expands to. -/
def charybdisDirectives : List (String × Nat) :=
  [("BASE", 0), ("POINTER", 1), ("LOWER", 2), ("RAISE", 3),
   ("SYMBOLS", 4), ("SCROLL", 5), ("SNIPING", 6)]

/-- The macro names defined by the header, in declaration order. -/
def layerNames : List String := charybdisDirectives.map Prod.fst

/-- Macro-name lookup over a definition list: the value of the first
definition whose name matches, `none` when the name is not defined. -/
def lookupMacro : List (String × Nat) → String → Option Nat
  | [], _ => none
  | p :: rest, name => if p.1 == name then some p.2 else lookupMacro rest name

/-- Processing of one define directive: appends the new definition to the
environment, failing with a duplicate-definition diagnostic when the name
is already defined. -/
def defineMacro (defs : List (String × Nat)) (d : String × Nat) :
    Except String (List (String × Nat)) :=
  match lookupMacro defs d.1 with
  | some _ => Except.error ("duplicate definition of " ++ d.1)
  | none => Except.ok (defs ++ [d])

/-- Processing of the header body (its seven define directives) on top of
an existing macro environment. -/
def processHeaderBody (defs : List (String × Nat)) :
    Except String (List (String × Nat)) :=
  charybdisDirectives.foldlM defineMacro defs

/-- Processing of the first `k` directives of the header body, starting
from an empty macro environment. -/
def processPrefixDirs (k : Nat) : Except String (List (String × Nat)) :=
  (charybdisDirectives.take k).foldlM defineMacro []

/-- Preprocessor state: whether the header was already included (the
pragma-once flag) and the macro environment accumulated so far. -/
structure PpState where
  included : Bool
  defs : List (String × Nat)
deriving DecidableEq

/-- One inclusion of the header: skipped entirely when the pragma-once
flag is set, otherwise the body is processed and the flag set. -/
def includeHeader (st : PpState) : Except String PpState :=
  if st.included then Except.ok st
  else (processHeaderBody st.defs).map (fun ds => ⟨true, ds⟩)

/-- Iterated inclusion: `n` successive inclusions of the header. -/
def includeHeaderN : Nat → PpState → Except String PpState
  | 0, st => Except.ok st
  | n + 1, st => (includeHeader st).bind (includeHeaderN n)

/-- Value of `x` in a translation unit containing `int x = RAISE;`: the
expansion of the token `RAISE` in the macro environment `env`. -/
def xValue (env : List (String × Nat)) : Option Nat := lookupMacro env "RAISE"

/-- A preprocessing token: an integer literal or an identifier. -/
inductive Token where
  | lit : Nat → Token
  | ident : String → Token
deriving DecidableEq

/-- The seven macros with their replacement token lists: each body is the
single integer literal written on its line of the header. -/
def charybdisBodies : List (String × List Token) :=
  [("BASE", [Token.lit 0]), ("POINTER", [Token.lit 1]), ("LOWER", [Token.lit 2]),
   ("RAISE", [Token.lit 3]), ("SYMBOLS", [Token.lit 4]), ("SCROLL", [Token.lit 5]),
   ("SNIPING", [Token.lit 6])]

/-- One pass of macro expansion under an arbitrary macro environment:
identifiers bound in the environment are replaced by their bodies,
literals are left unchanged. -/
def expandOnce (env : String → Option (List Token)) : List Token → List Token
  | [] => []
  | Token.lit n :: ts => Token.lit n :: expandOnce env ts
  | Token.ident s :: ts =>
      (match env s with
       | some body => body
       | none => [Token.ident s]) ++ expandOnce env ts

theorem lookupMacro_append (l₁ l₂ : List (String × Nat)) (name : String) :
    lookupMacro (l₁ ++ l₂) name =
      match lookupMacro l₁ name with
      | some v => some v
      | none => lookupMacro l₂ name := by
  induction l₁ with
  | nil => simp [lookupMacro]
  | cons p rest ih =>
      simp only [List.cons_append, lookupMacro]
      cases h : (p.1 == name) with
      | true => simp
      | false => simpa using ih

theorem lookupMacro_append_some (l₁ l₂ : List (String × Nat)) (name : String)
    (v : Nat) (h : lookupMacro l₁ name = some v) :
    lookupMacro (l₁ ++ l₂) name = some v := by
  rw [lookupMacro_append, h]

theorem lookupMacro_append_none (l₁ l₂ : List (String × Nat)) (name : String)
    (h : lookupMacro l₁ name = none) :
    lookupMacro (l₁ ++ l₂) name = lookupMacro l₂ name := by
  rw [lookupMacro_append, h]

theorem lookupMacro_of_append_none (l₁ l₂ : List (String × Nat)) (name : String)
    (h : lookupMacro (l₁ ++ l₂) name = none) :
    lookupMacro l₁ name = none := by
  rw [lookupMacro_append] at h
  cases hl : lookupMacro l₁ name with
  | none => rfl
  | some v => rw [hl] at h; exact absurd h (by simp)

theorem foldlM_defineMacro_ok (ds : List (String × Nat)) :
    ∀ defs out, ds.foldlM defineMacro defs = Except.ok out →
      out = defs ++ ds ∧ ∀ d ∈ ds, lookupMacro defs d.1 = none := by
  induction ds with
  | nil =>
      intro defs out h
      simp only [List.foldlM_nil, Except.pure] at h
      refine ⟨?_, by simp⟩
      cases h
      simp
  | cons d rest ih =>
      intro defs out h
      rw [List.foldlM_cons] at h
      cases hd : defineMacro defs d with
      | error e => rw [hd] at h; exact absurd h (by simp [Bind.bind, Except.bind])
      | ok s₁ =>
          rw [hd] at h
          have hstep : rest.foldlM defineMacro s₁ = Except.ok out := h
          obtain ⟨hout, hnone⟩ := ih s₁ out hstep
          unfold defineMacro at hd
          cases hl : lookupMacro defs d.1 with
          | some v => rw [hl] at hd; exact absurd hd (by simp)
          | none =>
              rw [hl] at hd
              have hs₁ : s₁ = defs ++ [d] := by
                cases hd
                rfl
              constructor
              · rw [hout, hs₁, List.append_assoc]
                rfl
              · intro d' hd'
                rcases List.mem_cons.mp hd' with hdd | hmem
                · rw [hdd]; exact hl
                · have := hnone d' hmem
                  rw [hs₁] at this
                  exact lookupMacro_of_append_none defs [d] d'.1 this

theorem includeHeaderN_of_included (n : Nat) (st : PpState)
    (h : st.included = true) : includeHeaderN n st = Except.ok st := by
  induction n with
  | zero => rfl
  | succ m ih =>
      have hstep : includeHeader st = Except.ok st := by
        unfold includeHeader
        rw [h]
        rfl
      show (includeHeader st).bind (includeHeaderN m) = Except.ok st
      rw [hstep]
      exact ih

theorem lookupMacro_isSome (defs : List (String × Nat)) (name : String) :
    (lookupMacro defs name).isSome = true ↔ name ∈ defs.map Prod.fst := by
  induction defs with
  | nil => simp [lookupMacro]
  | cons p rest ih =>
      simp only [lookupMacro, List.map_cons, List.mem_cons]
      cases h : (p.1 == name) with
      | true =>
          have : p.1 = name := by simpa using h
          simp [this]
      | false =>
          have hne : ¬ p.1 = name := by simpa using h
          rw [if_neg (by simp), ih]
          constructor
          · exact Or.inr
          · rintro (heq | hmem)
            · exact absurd heq.symm hne
            · exact hmem

/-- C1: each of the seven layer names expands to its stated integer
literal: BASE to 0, POINTER to 1, LOWER to 2, RAISE to 3, SYMBOLS to 4,
SCROLL to 5 and SNIPING to 6, in declaration order. -/
theorem layer_macro_values :
    lookupMacro charybdisDirectives "BASE" = some 0 ∧
    lookupMacro charybdisDirectives "POINTER" = some 1 ∧
    lookupMacro charybdisDirectives "LOWER" = some 2 ∧
    lookupMacro charybdisDirectives "RAISE" = some 3 ∧
    lookupMacro charybdisDirectives "SYMBOLS" = some 4 ∧
    lookupMacro charybdisDirectives "SCROLL" = some 5 ∧
    lookupMacro charybdisDirectives "SNIPING" = some 6 := by
  refine ⟨rfl, rfl, rfl, rfl, rfl, rfl, rfl⟩

/-- C2: the set of names the header defines is exactly the seven-element
set BASE, POINTER, LOWER, RAISE, SYMBOLS, SCROLL, SNIPING and nothing
else. -/
theorem header_defines_exactly_seven_names :
    layerNames = ["BASE", "POINTER", "LOWER", "RAISE",
                  "SYMBOLS", "SCROLL", "SNIPING"] ∧
    layerNames.length = 7 := ⟨rfl, rfl⟩

/-- C3: the name-to-index mapping is injective: any two directives of the
header with distinct names carry distinct integer values. -/
theorem layer_indices_injective :
    ∀ p q, p ∈ charybdisDirectives → q ∈ charybdisDirectives →
      p.1 ≠ q.1 → p.2 ≠ q.2 := by
  intro p q hp hq
  fin_cases hp <;> fin_cases hq <;> decide

/-- Witness for C3 at the concrete pair BASE, POINTER. -/
theorem layer_indices_injective_witness :
    ("BASE", 0) ∈ charybdisDirectives ∧ ("POINTER", 1) ∈ charybdisDirectives ∧
    (("BASE", 0) : String × Nat).2 ≠ (("POINTER", 1) : String × Nat).2 :=
  ⟨by decide, by decide,
   layer_indices_injective ("BASE", 0) ("POINTER", 1)
     (by decide) (by decide) (by decide)⟩

/-- C4: the indices are contiguous from 0: the list of values is exactly
0,...,6 in order, and the directive at position i carries index i. -/
theorem layer_indices_contiguous :
    charybdisDirectives.map Prod.snd = List.range 7 ∧
    ∀ i (h : i < charybdisDirectives.length),
      (charybdisDirectives.get ⟨i, h⟩).2 = i := by
  refine ⟨rfl, ?_⟩
  decide

/-- Witness for C4 at position 3. -/
theorem layer_indices_contiguous_witness :
    (charybdisDirectives.get ⟨3, by decide⟩).2 = 3 :=
  layer_indices_contiguous.2 3 (by decide)

/-- C5: including the guarded header any positive number of times gives
the same result as including it once: the same macro environment and no
duplicate-definition error. -/
theorem pragma_once_idempotent (n : Nat) (hn : 0 < n) :
    includeHeaderN n ⟨false, []⟩ = includeHeaderN 1 ⟨false, []⟩ ∧
    includeHeaderN n ⟨false, []⟩ =
      Except.ok ⟨true, charybdisDirectives⟩ := by
  obtain ⟨m, rfl⟩ : ∃ m, n = m + 1 :=
    ⟨n - 1, (Nat.succ_pred_eq_of_pos hn).symm⟩
  have h1 : includeHeader ⟨false, []⟩ =
      Except.ok ⟨true, charybdisDirectives⟩ := rfl
  have hstep : includeHeaderN (m + 1) ⟨false, []⟩ =
      includeHeaderN m ⟨true, charybdisDirectives⟩ := by
    show (includeHeader ⟨false, []⟩).bind (includeHeaderN m) = _
    rw [h1]
    rfl
  rw [hstep, includeHeaderN_of_included m ⟨true, charybdisDirectives⟩ rfl]
  exact ⟨rfl, rfl⟩

/-- Witness for C5 at three inclusions. -/
theorem pragma_once_idempotent_witness :
    includeHeaderN 3 ⟨false, []⟩ = includeHeaderN 1 ⟨false, []⟩ ∧
    includeHeaderN 3 ⟨false, []⟩ =
      Except.ok ⟨true, charybdisDirectives⟩ :=
  pragma_once_idempotent 3 (by decide)

/-- C6: in any translation unit whose other headers process without error
before and after this header, the declaration using the token RAISE
receives the value 3. -/
theorem tu_raise_value (pre post env₁ env₂ : List (String × Nat))
    (h₁ : processHeaderBody pre = Except.ok env₁)
    (h₂ : post.foldlM defineMacro env₁ = Except.ok env₂) :
    xValue env₂ = some 3 := by
  obtain ⟨henv₁, hnone⟩ := foldlM_defineMacro_ok charybdisDirectives pre env₁ h₁
  obtain ⟨henv₂, -⟩ := foldlM_defineMacro_ok post env₁ env₂ h₂
  have hpre : lookupMacro pre "RAISE" = none :=
    hnone ("RAISE", 3) (by decide)
  have hmid : lookupMacro charybdisDirectives "RAISE" = some 3 := rfl
  rw [xValue, henv₂, henv₁, List.append_assoc,
    lookupMacro_append_none pre (charybdisDirectives ++ post) "RAISE" hpre,
    lookupMacro_append_some charybdisDirectives post "RAISE" 3 hmid]

/-- Witness for C6 with one foreign definition before and one after. -/
theorem tu_raise_value_witness :
    xValue (([("FOO", 42)] ++ charybdisDirectives) ++ [("BAR", 9)]) = some 3 :=
  tu_raise_value [("FOO", 42)] [("BAR", 9)]
    ([("FOO", 42)] ++ charybdisDirectives)
    (([("FOO", 42)] ++ charybdisDirectives) ++ [("BAR", 9)])
    (by rfl) (by rfl)

/-- C7: the mapping is never mutated: any definition present after
processing a shorter prefix of the header is still present, with the same
value, after processing any longer prefix. -/
theorem macro_definitions_immutable (i j : Nat) (envI envJ : List (String × Nat))
    (name : String) (v : Nat) (hij : i ≤ j)
    (hi : processPrefixDirs i = Except.ok envI)
    (hj : processPrefixDirs j = Except.ok envJ)
    (hv : lookupMacro envI name = some v) :
    lookupMacro envJ name = some v := by
  obtain ⟨hIeq, -⟩ :=
    foldlM_defineMacro_ok (charybdisDirectives.take i) [] envI hi
  obtain ⟨hJeq, -⟩ :=
    foldlM_defineMacro_ok (charybdisDirectives.take j) [] envJ hj
  have htake : charybdisDirectives.take j =
      charybdisDirectives.take i ++
        (charybdisDirectives.drop i).take (j - i) := by
    rw [← List.take_add]
    rw [Nat.add_sub_cancel' hij]
  rw [hIeq, List.nil_append] at hv
  rw [hJeq, List.nil_append, htake]
  exact lookupMacro_append_some _ _ name v hv

/-- Witness for C7 from the one-directive prefix to the full header. -/
theorem macro_definitions_immutable_witness :
    processPrefixDirs 1 = Except.ok [("BASE", 0)] ∧
    processPrefixDirs 7 = Except.ok charybdisDirectives ∧
    lookupMacro charybdisDirectives "BASE" = some 0 :=
  ⟨rfl, rfl,
   macro_definitions_immutable 1 7 [("BASE", 0)] charybdisDirectives
     "BASE" 0 (by decide) rfl rfl rfl⟩

/-- C8: lookup over the header's definitions returns a value exactly for
the seven defined names and none for every other name. -/
theorem lookup_some_iff_defined (name : String) :
    ((lookupMacro charybdisDirectives name).isSome = true ↔
      name ∈ layerNames) ∧
    (lookupMacro charybdisDirectives name = none ↔ name ∉ layerNames) := by
  have h : (lookupMacro charybdisDirectives name).isSome = true ↔
      name ∈ layerNames :=
    lookupMacro_isSome charybdisDirectives name
  refine ⟨h, ?_⟩
  rw [← Option.not_isSome_iff_eq_none]
  exact not_congr h

/-- Witness for C8 at the name BASE. -/
theorem lookup_some_iff_defined_witness :
    ((lookupMacro charybdisDirectives "BASE").isSome = true ↔
      "BASE" ∈ layerNames) ∧
    (lookupMacro charybdisDirectives "BASE" = none ↔ "BASE" ∉ layerNames) :=
  lookup_some_iff_defined "BASE"

/-- C9: every macro body is a single plain integer literal mentioning no
other name, so one expansion pass under any environment whatsoever leaves
it unchanged at the value recorded in the header. -/
theorem bodies_single_literal_independent (name : String) (body : List Token)
    (h : (name, body) ∈ charybdisBodies) :
    ∃ v, lookupMacro charybdisDirectives name = some v ∧
      body = [Token.lit v] ∧
      ∀ env : String → Option (List Token), expandOnce env body = body := by
  fin_cases h
  · exact ⟨0, rfl, rfl, fun env => rfl⟩
  · exact ⟨1, rfl, rfl, fun env => rfl⟩
  · exact ⟨2, rfl, rfl, fun env => rfl⟩
  · exact ⟨3, rfl, rfl, fun env => rfl⟩
  · exact ⟨4, rfl, rfl, fun env => rfl⟩
  · exact ⟨5, rfl, rfl, fun env => rfl⟩
  · exact ⟨6, rfl, rfl, fun env => rfl⟩

/-- Witness for C9 at the RAISE body. -/
theorem bodies_single_literal_independent_witness :
    ∃ v, lookupMacro charybdisDirectives "RAISE" = some v ∧
      [Token.lit 3] = [Token.lit v] ∧
      ∀ env : String → Option (List Token),
        expandOnce env [Token.lit 3] = [Token.lit 3] :=
  bodies_single_literal_independent "RAISE" [Token.lit 3] (by decide)

/-- C10: every value of the header is at most 6, hence is left unchanged
by reduction modulo 2 to the w for any width w of at least 3 bits. -/
theorem layer_values_fit_in_width (p : String × Nat)
    (hp : p ∈ charybdisDirectives) (w : Nat) (hw : 3 ≤ w) :
    p.2 ≤ 6 ∧ p.2 % 2 ^ w = p.2 := by
  have hv : p.2 ≤ 6 := by fin_cases hp <;> decide
  refine ⟨hv, Nat.mod_eq_of_lt ?_⟩
  calc p.2 < 8 := by omega
    _ = 2 ^ 3 := rfl
    _ ≤ 2 ^ w := Nat.pow_le_pow_right (by decide) hw

/-- Witness for C10 at SNIPING with a 3-bit width. -/
theorem layer_values_fit_in_width_witness :
    (("SNIPING", 6) : String × Nat).2 ≤ 6 ∧
    (("SNIPING", 6) : String × Nat).2 % 2 ^ 3 =
      (("SNIPING", 6) : String × Nat).2 :=
  layer_values_fit_in_width ("SNIPING", 6) (by decide) 3 (by decide)

end CharybdisLayers
